import Mathlib

/-!
Shallow embedding of the IntelliMeet room/session coordination backend
(Express + SQLite).  Rooms and participants are modelled as lists of
records (rows in insertion order); each HTTP route handler becomes a pure
function from the database state (plus the values the handler obtains from
the environment: generated ids and the current clock) to the new state and
a typed result.  The in-memory chat buffer and the WebSocket fan-out hub
are modelled the same way.
-/

deriving instance DecidableEq for Except

namespace IntelliMeet

/-- HTTP-level error classes thrown via AppError in the route handlers. -/
inductive ErrCode
  | badRequest   -- 400
  | forbidden    -- 403
  | notFound     -- 404
  | conflict     -- 409
  | gone         -- 410
deriving DecidableEq, Repr

/-- HTTP status code carried by each AppError class. -/
def ErrCode.status : ErrCode → Nat
  | .badRequest => 400
  | .forbidden => 403
  | .notFound => 404
  | .conflict => 409
  | .gone => 410

/-- A row of the `rooms` table.  `createdAt` is in milliseconds since the
epoch (the handlers compare Date values at millisecond precision);
`password = none` models SQL NULL. -/
structure Room where
  id : String
  title : String
  description : Option String
  password : Option String
  isRecordingEnabled : Bool
  maxParticipants : Int
  createdAt : Int
  isActive : Bool
  creatorId : Option String
deriving DecidableEq, Repr

/-- A row of the `participants` table.  `leftAt = none` models SQL NULL
(the participant is still present). -/
structure Participant where
  id : String
  roomId : String
  name : String
  joinedAt : Int
  leftAt : Option Int
  isAudioEnabled : Bool
  isVideoEnabled : Bool
  isScreenSharing : Bool
  isHost : Bool
deriving DecidableEq, Repr

/-- The persistent store: the two SQL tables, rows in insertion order. -/
structure DB where
  rooms : List Room
  participants : List Participant
deriving DecidableEq, Repr

/- ### Sanitisation helpers (middleware/validation.ts) -/

/-- Collapses every maximal run of whitespace to a single space, the
effect of `.replace(/\s+/g, ' ')`.  The Boolean argument records whether
the previous character was part of a whitespace run. -/
def collapseWsAux : Bool → List Char → List Char
  | _, [] => []
  | prevWs, c :: rest =>
    if c.isWhitespace then
      if prevWs then collapseWsAux true rest
      else ' ' :: collapseWsAux true rest
    else c :: collapseWsAux false rest

/-- `.trim()` on the underlying character list: drop whitespace from both
ends. -/
def trimChars (l : List Char) : List Char :=
  ((l.dropWhile Char.isWhitespace).reverse.dropWhile Char.isWhitespace).reverse

/-- JS `String.prototype.trim`. -/
def jsTrim (s : String) : String :=
  String.mk (trimChars s.data)

/-- `sanitizeString`: trim, strip angle brackets, collapse whitespace. -/
def sanitizeString (s : String) : String :=
  let noAngles := (trimChars s.data).filter (fun c => c ≠ '<' ∧ c ≠ '>')
  String.mk (collapseWsAux false noAngles)

/-- `sanitizeRoomId`: lower-case, then keep only `[a-z0-9]`. -/
def sanitizeRoomId (roomId : String) : String :=
  String.mk ((roomId.data.map Char.toLower).filter
    (fun c => ('a' ≤ c ∧ c ≤ 'z') ∨ ('0' ≤ c ∧ c ≤ '9')))

/- ### Store queries shared by the route handlers -/

/-- `SELECT ... FROM rooms WHERE id = ?` (first matching row). -/
def findRoom (db : DB) (id : String) : Option Room :=
  db.rooms.find? (fun r => r.id == id)

/-- `SELECT COUNT(*) FROM participants WHERE room_id = ? AND left_at IS
NULL` — the active-participant count used for capacity checks. -/
def activeCount (db : DB) (roomId : String) : Nat :=
  db.participants.countP (fun p => p.roomId == roomId && p.leftAt.isNone)

/-- The WHERE clause `room_id = ? AND is_host = 1 AND left_at IS NULL`
of the host-count query. -/
def hostPred (roomId : String) (p : Participant) : Bool :=
  p.roomId == roomId && p.isHost && p.leftAt.isNone

/-- `SELECT COUNT(*) FROM participants WHERE room_id = ? AND is_host = 1
AND left_at IS NULL` — the active-host count used for host assignment. -/
def hostCount (db : DB) (roomId : String) : Nat :=
  db.participants.countP (hostPred roomId)

/- ### createRoom (routes/rooms.ts POST '/' with createRoomSchema) -/

/-- Raw request body for room creation, before zod validation.  A missing
field is `none`. -/
structure CreateRoomInput where
  title : String
  description : Option String
  password : Option String
  isRecordingEnabled : Option Bool
  maxParticipants : Option Int
deriving DecidableEq, Repr

/-- Request body after `createRoomSchema` validation, with zod defaults
applied. -/
structure CreateRoomData where
  title : String
  description : Option String
  password : Option String
  isRecordingEnabled : Bool
  maxParticipants : Int
deriving DecidableEq, Repr

/-- `createRoomSchema.parse`: title 1–100 chars then trimmed; description
at most 500 chars then trimmed; password at most 50 chars and, unless
empty, at least 4; maxParticipants an integer in [2,10], defaulting
to 10.  Any violation is reported as a 400 by `validateBody`. -/
def validateCreateRoom (inp : CreateRoomInput) : Except ErrCode CreateRoomData :=
  if inp.title.length < 1 then .error .badRequest
  else if inp.title.length > 100 then .error .badRequest
  else if (inp.description.getD "").length > 500 then .error .badRequest
  else if (let p := inp.password.getD ""
           p.length > 50 ∨ (p ≠ "" ∧ p.length < 4)) then .error .badRequest
  else if (let m := inp.maxParticipants.getD 10
           m < 2 ∨ m > 10) then .error .badRequest
  else .ok { title := jsTrim inp.title
             description := inp.description.map jsTrim
             password := inp.password
             isRecordingEnabled := inp.isRecordingEnabled.getD false
             maxParticipants := inp.maxParticipants.getD 10 }

/-- The POST '/' handler body: inserts the room (active, with
`Math.min(maxParticipants || 10, 10)` as the cap) and the creator as the
first participant, named "Host" with `is_host = 1`; the media flags take
the table defaults (audio on, video on, screen share off).  `roomId`,
`creatorId` and `now` stand for the generated ids and `datetime('now')`.
Returns the new store, the created room row and the creator id. -/
def createRoom (db : DB) (data : CreateRoomData) (roomId creatorId : String)
    (now : Int) : DB × Room × String :=
  let sanitizedTitle := sanitizeString data.title
  let sanitizedDescription := data.description.map sanitizeString
  let cappedMaxParticipants :=
    min (if data.maxParticipants = 0 then 10 else data.maxParticipants) 10
  let room : Room :=
    { id := roomId
      title := sanitizedTitle
      description := sanitizedDescription
      password := match data.password with
                  | some p => if p = "" then none else some p
                  | none => none
      isRecordingEnabled := data.isRecordingEnabled
      maxParticipants := cappedMaxParticipants
      createdAt := now
      isActive := true
      creatorId := some creatorId }
  let host : Participant :=
    { id := creatorId
      roomId := roomId
      name := "Host"
      joinedAt := now
      leftAt := none
      isAudioEnabled := true
      isVideoEnabled := true
      isScreenSharing := false
      isHost := true }
  ({ rooms := db.rooms ++ [room], participants := db.participants ++ [host] },
   room, creatorId)

/-- The whole POST '/' endpoint: zod validation followed by the handler. -/
def createRoomEndpoint (db : DB) (inp : CreateRoomInput)
    (roomId creatorId : String) (now : Int) :
    DB × Except ErrCode (Room × String) :=
  match validateCreateRoom inp with
  | .error e => (db, .error e)
  | .ok data =>
    let (db', room, cid) := createRoom db data roomId creatorId now
    (db', .ok (room, cid))

/- ### joinRoom (routes/rooms.ts POST '/join') -/

/-- Success payload of POST '/join': the room row that admitted the
caller and the participant row returned (existing or freshly inserted). -/
structure JoinOk where
  room : Room
  participant : Participant
deriving DecidableEq, Repr

/-- JS truthiness check on the stored password followed by strict
inequality with the supplied one: `room.password && room.password !==
password`. -/
def passwordRejects (stored supplied : Option String) : Bool :=
  match stored with
  | none => false
  | some pw => pw ≠ "" && supplied ≠ some pw

/-- The participant row inserted by POST '/join' when no active
participant of the room already carries the sanitised name:
`shouldBeHost = (hostCount == 0)`, media flags from the table defaults. -/
def joinNewParticipant (db : DB) (rid pname newId : String) (now : Int) :
    Participant :=
  { id := newId
    roomId := rid
    name := pname
    joinedAt := now
    leftAt := none
    isAudioEnabled := true
    isVideoEnabled := true
    isScreenSharing := false
    isHost := hostCount db rid = 0 }

/-- The POST '/join' handler: sanitises the ids, resolves the room (404),
checks it is active (410), checks the password (403), checks capacity
(409), then either returns an active participant of the same sanitised
name or inserts a new participant who becomes host exactly when no active
host is present.  `newId` and `now` stand for the generated participant
id and `datetime('now')`. -/
def joinRoom (db : DB) (roomId participantName : String)
    (password : Option String) (newId : String) (now : Int) :
    DB × Except ErrCode JoinOk :=
  match findRoom db (sanitizeRoomId roomId) with
  | none => (db, .error .notFound)
  | some room =>
    if !room.isActive then (db, .error .gone)
    else if passwordRejects room.password password then (db, .error .forbidden)
    else if (activeCount db (sanitizeRoomId roomId) : Int) ≥
        room.maxParticipants then
      (db, .error .conflict)
    else
      match db.participants.find?
          (fun p => p.roomId == sanitizeRoomId roomId &&
            p.name == sanitizeString participantName && p.leftAt.isNone) with
      | some p => (db, .ok ⟨room, p⟩)
      | none =>
        let newP := joinNewParticipant db (sanitizeRoomId roomId)
          (sanitizeString participantName) newId now
        ({ db with participants := db.participants ++ [newP] },
         .ok ⟨room, newP⟩)

/- ### leaveRoom (routes/rooms.ts POST '/leave') -/

/-- The POST '/leave' handler: 400 when `participantId` is falsy,
otherwise `UPDATE participants SET left_at = now WHERE id = ? AND left_at
IS NULL` and success regardless of how many rows matched. -/
def leaveRoom (db : DB) (participantId : String) (now : Int) :
    DB × Except ErrCode Unit :=
  if participantId = "" then (db, .error .badRequest)
  else
    ({ db with
        participants := db.participants.map (fun p =>
          if p.id == participantId && p.leftAt.isNone then
            { p with leftAt := some now } else p) },
     .ok ())

/- ### checkTimeout (routes/rooms.ts GET '/:roomId/timeout') -/

/-- Response shape of the timeout poll. -/
structure CheckTimeoutResponse where
  shouldClose : Bool
  remainingMinutes : Int
deriving DecidableEq, Repr

/-- `SELECT created_at FROM rooms WHERE id = ? AND is_active = 1`. -/
def findActiveRoom (db : DB) (id : String) : Option Room :=
  db.rooms.find? (fun r => r.id == id && r.isActive)

/-- The GET '/:roomId/timeout' handler: unknown or inactive room answers
`shouldClose = true, remainingMinutes = 0` with no state change; an
active room computes `minutesElapsed = floor((now - createdAt) / 60000)`
and `remainingMinutes = max 0 (30 - minutesElapsed)`; at 30 elapsed
minutes or more the call itself deactivates the room and stamps `leftAt`
on every still-present participant of the room. -/
def checkTimeout (db : DB) (roomId : String) (now : Int) :
    DB × CheckTimeoutResponse :=
  match findActiveRoom db roomId with
  | none => (db, ⟨true, 0⟩)
  | some room =>
    let minutesElapsed := Int.fdiv (now - room.createdAt) 60000
    let remainingMinutes := max 0 (30 - minutesElapsed)
    if minutesElapsed ≥ 30 then
      ({ rooms := db.rooms.map (fun r =>
            if r.id == roomId then { r with isActive := false } else r)
         participants := db.participants.map (fun p =>
            if p.roomId == roomId && p.leftAt.isNone then
              { p with leftAt := some now } else p) },
       ⟨true, 0⟩)
    else (db, ⟨false, remainingMinutes⟩)

/- ### endMeeting (routes/rooms.ts POST '/:roomId/end') -/

/-- The POST '/:roomId/end' handler: resolves the caller among the active
participants of the room (404), requires `is_host` (403), then
deactivates the room and stamps `leftAt` on every still-present
participant of the room. -/
def endMeeting (db : DB) (roomId participantId : String) (now : Int) :
    DB × Except ErrCode Unit :=
  if participantId = "" then (db, .error .badRequest)
  else
    match db.participants.find? (fun p =>
        p.id == participantId && p.roomId == roomId && p.leftAt.isNone) with
    | none => (db, .error .notFound)
    | some caller =>
      if !caller.isHost then (db, .error .forbidden)
      else
        ({ rooms := db.rooms.map (fun r =>
              if r.id == roomId then { r with isActive := false } else r)
           participants := db.participants.map (fun p =>
              if p.roomId == roomId && p.leftAt.isNone then
                { p with leftAt := some now } else p) },
         .ok ())

/- ### Participant routes (routes/participants.ts) -/

/-- Body of PUT '/:participantId': the three optional media flags. -/
structure UpdateParticipantBody where
  isAudioEnabled : Option Bool
  isVideoEnabled : Option Bool
  isScreenSharing : Option Bool
deriving DecidableEq, Repr

/-- The PUT '/:participantId' handler (self-service media update): 400
when no field is supplied, otherwise `UPDATE participants SET ... WHERE
id = ?` — with no `left_at IS NULL` condition — and 404 when the id
matches no row at all. -/
def updateOwnParticipant (db : DB) (participantId : String)
    (body : UpdateParticipantBody) : DB × Except ErrCode Unit :=
  if body.isAudioEnabled.isNone ∧ body.isVideoEnabled.isNone ∧
      body.isScreenSharing.isNone then
    (db, .error .badRequest)
  else if (db.participants.find? (fun p => p.id == participantId)).isNone then
    (db, .error .notFound)
  else
    ({ db with
        participants := db.participants.map (fun p =>
          if p.id == participantId then
            { p with
                isAudioEnabled := body.isAudioEnabled.getD p.isAudioEnabled
                isVideoEnabled := body.isVideoEnabled.getD p.isVideoEnabled
                isScreenSharing :=
                  body.isScreenSharing.getD p.isScreenSharing }
          else p) },
     .ok ())

/-- Shared admission prelude of the four host-only actions: resolve the
requester among active participants (404), require `is_host` (403),
resolve the target among active participants (404), require the same
room (400), and refuse a host target (403).  On success it returns the
resolved target row. -/
def resolveHostAction (db : DB) (participantId hostId : String) :
    Except ErrCode Participant :=
  if hostId = "" then .error .badRequest
  else
    match db.participants.find? (fun p => p.id == hostId && p.leftAt.isNone) with
    | none => .error .notFound
    | some h =>
      if !h.isHost then .error .forbidden
      else
        match db.participants.find? (fun p =>
            p.id == participantId && p.leftAt.isNone) with
        | none => .error .notFound
        | some t =>
          if t.roomId ≠ h.roomId then .error .badRequest
          else if t.isHost then .error .forbidden
          else .ok t

/-- POST '/:participantId/kick': after host-action admission, `UPDATE
participants SET left_at = now WHERE id = ? AND left_at IS NULL`. -/
def kickParticipant (db : DB) (participantId hostId : String) (now : Int) :
    DB × Except ErrCode Unit :=
  match resolveHostAction db participantId hostId with
  | .error e => (db, .error e)
  | .ok _ =>
    ({ db with
        participants := db.participants.map (fun p =>
          if p.id == participantId && p.leftAt.isNone then
            { p with leftAt := some now } else p) },
     .ok ())

/-- POST '/:participantId/mute': after host-action admission, `UPDATE
participants SET is_audio_enabled = !mute WHERE id = ? AND left_at IS
NULL`. -/
def muteParticipant (db : DB) (participantId hostId : String) (mute : Bool) :
    DB × Except ErrCode Unit :=
  match resolveHostAction db participantId hostId with
  | .error e => (db, .error e)
  | .ok _ =>
    ({ db with
        participants := db.participants.map (fun p =>
          if p.id == participantId && p.leftAt.isNone then
            { p with isAudioEnabled := !mute } else p) },
     .ok ())

/-- POST '/:participantId/video': after host-action admission, `UPDATE
participants SET is_video_enabled = enable WHERE id = ? AND left_at IS
NULL`. -/
def videoControl (db : DB) (participantId hostId : String) (enable : Bool) :
    DB × Except ErrCode Unit :=
  match resolveHostAction db participantId hostId with
  | .error e => (db, .error e)
  | .ok _ =>
    ({ db with
        participants := db.participants.map (fun p =>
          if p.id == participantId && p.leftAt.isNone then
            { p with isVideoEnabled := enable } else p) },
     .ok ())

/-- POST '/:participantId/screenshare': after host-action admission,
`UPDATE participants SET is_screen_sharing = enable WHERE id = ? AND
left_at IS NULL`. -/
def screenshareControl (db : DB) (participantId hostId : String)
    (enable : Bool) : DB × Except ErrCode Unit :=
  match resolveHostAction db participantId hostId with
  | .error e => (db, .error e)
  | .ok _ =>
    ({ db with
        participants := db.participants.map (fun p =>
          if p.id == participantId && p.leftAt.isNone then
            { p with isScreenSharing := enable } else p) },
     .ok ())

/- ### Chat ring buffer (routes/chat.ts) -/

/-- An entry of the in-memory per-room chat history. -/
structure ChatMessage where
  id : String
  roomId : String
  sender : String
  content : String
  timestamp : Int
deriving DecidableEq, Repr

/-- The module-level `roomMessages` Map, as an association list in key
insertion order. -/
abbrev ChatState := List (String × List ChatMessage)

/-- `roomMessages.get(roomId)`. -/
def chatLookup (st : ChatState) (roomId : String) : Option (List ChatMessage) :=
  (st.find? (fun e => e.1 == roomId)).map (fun e => e.2)

/-- `roomMessages.set(roomId, msgs)`: replace in place when the key
exists, append the key otherwise. -/
def chatSet (st : ChatState) (roomId : String) (msgs : List ChatMessage) :
    ChatState :=
  if (st.find? (fun e => e.1 == roomId)).isSome then
    st.map (fun e => if e.1 == roomId then (e.1, msgs) else e)
  else st ++ [(roomId, msgs)]

/-- The trim step of POST '/send': `messages.splice(0, messages.length -
100)` when the sequence exceeds 100 entries, i.e. keep the last 100. -/
def trimTo100 (messages : List ChatMessage) : List ChatMessage :=
  if messages.length > 100 then messages.drop (messages.length - 100)
  else messages

/-- The POST '/send' handler: 400 when `roomId`, `sender` or `content` is
falsy; otherwise builds the message (with the generated id and current
time), appends it to the room's sequence and trims the sequence from the
front so that at most the last 100 entries remain.  The room store is
never consulted.  -/
def sendChatMessage (st : ChatState) (roomId sender content : String)
    (newId : String) (now : Int) : ChatState × Except ErrCode ChatMessage :=
  if roomId = "" ∨ sender = "" ∨ content = "" then (st, .error .badRequest)
  else
    let message : ChatMessage := ⟨newId, roomId, sender, content, now⟩
    (chatSet st roomId (trimTo100 ((chatLookup st roomId).getD [] ++ [message])),
     .ok message)

/-- The GET '/:roomId/messages' handler: the retained sequence, or empty
when the room has no history. -/
def listChatMessages (st : ChatState) (roomId : String) : List ChatMessage :=
  (chatLookup st roomId).getD []

/-- The DELETE '/:roomId/clear' handler: `roomMessages.delete(roomId)`. -/
def clearChatMessages (st : ChatState) (roomId : String) : ChatState :=
  st.filter (fun e => e.1 ≠ roomId)

/-- The room store and the chat buffer side by side, to state that the
chat endpoints are independent of the room store. -/
structure SysState where
  db : DB
  chat : ChatState
deriving DecidableEq, Repr

/-- POST '/send' at the level of the whole process state: only the chat
buffer is read or written. -/
def sysSendChatMessage (sys : SysState) (roomId sender content : String)
    (newId : String) (now : Int) : SysState × Except ErrCode ChatMessage :=
  let (chat', res) := sendChatMessage sys.chat roomId sender content newId now
  ({ sys with chat := chat' }, res)

/- ### WebSocket fan-out hub (services/websocket.ts) -/

/-- One entry of the `connectedClients` map: the connection id and its
current `(roomId, participantId)` binding (both `undefined` while the
connection is unbound).  Only open, live connections are modelled. -/
structure HubClient where
  clientId : String
  roomId : Option String
  participantId : Option String
deriving DecidableEq, Repr

/-- Outbound push messages relevant to the join/leave handlers. -/
inductive WsOut
  | errorMsg (message : String)
  | participantJoined (participantId roomId : String)
  | participantLeft (participantId : Option String) (roomId : String)
deriving DecidableEq, Repr

/-- The hub's module-level state: `connectedClients` and
`roomClientCount`, both as association lists in key insertion order. -/
structure HubState where
  clients : List HubClient
  roomCount : List (String × Nat)
deriving DecidableEq, Repr

/-- The fixed per-room connection cap of the hub. -/
def MAX_CLIENTS_PER_ROOM : Nat := 10

/-- `roomClientCount.get(roomId) || 0`. -/
def getRoomCount (st : HubState) (roomId : String) : Nat :=
  ((st.roomCount.find? (fun e => e.1 == roomId)).map (fun e => e.2)).getD 0

/-- `roomClientCount.set(roomId, n)`. -/
def setRoomCount (rc : List (String × Nat)) (roomId : String) (n : Nat) :
    List (String × Nat) :=
  if (rc.find? (fun e => e.1 == roomId)).isSome then
    rc.map (fun e => if e.1 == roomId then (e.1, n) else e)
  else rc ++ [(roomId, n)]

/-- `broadcastToRoom`: one send per live connection currently bound to
the room, except the excluded client id. -/
def broadcastToRoom (clients : List HubClient) (roomId : String)
    (msg : WsOut) (excludeClientId : String) : List (String × WsOut) :=
  (clients.filter (fun c =>
      c.roomId == some roomId && c.clientId ≠ excludeClientId)).map
    (fun c => (c.clientId, msg))

/-- `leaveRoomInternal`: broadcast `participant-left` to the others,
decrement the room count (floored at 0), then clear the binding. -/
def leaveRoomInternal (st : HubState) (clientId roomId : String) :
    HubState × List (String × WsOut) :=
  match st.clients.find? (fun c => c.clientId == clientId) with
  | none => (st, [])
  | some client =>
    let sends := broadcastToRoom st.clients roomId
      (.participantLeft client.participantId roomId) clientId
    let current := getRoomCount st roomId
    let rc := if current > 0 then setRoomCount st.roomCount roomId (current - 1)
              else st.roomCount
    ({ clients := st.clients.map (fun c =>
          if c.clientId == clientId then
            { c with roomId := none, participantId := none } else c)
       roomCount := rc },
     sends)

/-- `handleJoinRoom`: refuse with an error notice when the room's live
count has reached `MAX_CLIENTS_PER_ROOM`; otherwise leave any previous
room, bind the connection to `(roomId, participantId)`, bump the room
count and broadcast `participant-joined` to every other connection bound
to the room.  Returns the new hub state and the outbound sends in
order. -/
def handleJoinRoom (st : HubState) (clientId roomId participantId : String) :
    HubState × List (String × WsOut) :=
  match st.clients.find? (fun c => c.clientId == clientId) with
  | none => (st, [])
  | some client =>
    let currentRoomCount := getRoomCount st roomId
    if currentRoomCount ≥ MAX_CLIENTS_PER_ROOM then
      (st, [(clientId, .errorMsg "Room is full")])
    else
      let (st1, leaveSends) :=
        match client.roomId with
        | some prev => leaveRoomInternal st clientId prev
        | none => (st, [])
      let st2 : HubState :=
        { clients := st1.clients.map (fun c =>
            if c.clientId == clientId then
              { c with roomId := some roomId, participantId := some participantId }
            else c)
          roomCount := setRoomCount st1.roomCount roomId (currentRoomCount + 1) }
      (st2, leaveSends ++ broadcastToRoom st2.clients roomId
        (.participantJoined participantId roomId) clientId)

/- ### Chat request sequences (for stating the ring-buffer property) -/

/-- One POST '/send' request: sender, content, generated id, clock. -/
structure SendReq where
  sender : String
  content : String
  newId : String
  now : Int
deriving DecidableEq, Repr

/-- Replay a sequence of POST '/send' requests against one room. -/
def runSends (st : ChatState) (roomId : String) : List SendReq → ChatState
  | [] => st
  | r :: rest =>
    runSends (sendChatMessage st roomId r.sender r.content r.newId r.now).1
      roomId rest

/-- The messages a request sequence would produce, in request order. -/
def mkMsgs (roomId : String) (reqs : List SendReq) : List ChatMessage :=
  reqs.map (fun r => ⟨r.newId, roomId, r.sender, r.content, r.now⟩)

/- ### Concrete fixtures used by closed instances -/

/-- The empty store. -/
def emptyDB : DB := ⟨[], []⟩

/-- A two-seat room created at time 0. -/
def roomA : Room :=
  { id := "rooma", title := "Standup", description := none, password := none,
    isRecordingEnabled := false, maxParticipants := 2, createdAt := 0,
    isActive := true, creatorId := some "cr1" }

/-- The creator row of `roomA`. -/
def hostA : Participant :=
  { id := "cr1", roomId := "rooma", name := "Host", joinedAt := 0,
    leftAt := none, isAudioEnabled := true, isVideoEnabled := true,
    isScreenSharing := false, isHost := true }

/-- A second, non-host participant of `roomA`. -/
def bobA : Participant :=
  { id := "p2", roomId := "rooma", name := "Bob", joinedAt := 1,
    leftAt := none, isAudioEnabled := true, isVideoEnabled := true,
    isScreenSharing := false, isHost := false }

/-- A participant of `roomA` who already left at time 5. -/
def departedP : Participant :=
  { id := "p9", roomId := "rooma", name := "Gone", joinedAt := 1,
    leftAt := some 5, isAudioEnabled := true, isVideoEnabled := true,
    isScreenSharing := false, isHost := false }

/-- `roomA` freshly created: only the creator present. -/
def dbFresh : DB := ⟨[roomA], [hostA]⟩

/-- `roomA` at capacity: creator plus Bob, 2 of 2 seats taken. -/
def dbFull : DB := ⟨[roomA], [hostA, bobA]⟩

/-- `roomA` with the creator present and one departed participant. -/
def dbDeparted : DB := ⟨[roomA], [hostA, departedP]⟩

/-- A hub with two connections bound to `roomA`'s id and one unbound. -/
def hubTwo : HubState :=
  { clients :=
      [ { clientId := "c1", roomId := some "rooma",
          participantId := some "cr1" },
        { clientId := "c2", roomId := some "rooma",
          participantId := some "p2" },
        { clientId := "c3", roomId := none, participantId := none } ]
    roomCount := [("rooma", 2)] }

/-- A hub whose count for "roomx" already sits at the fixed cap. -/
def hubAtCap : HubState :=
  { clients := [{ clientId := "d1", roomId := none, participantId := none }]
    roomCount := [("roomx", 10)] }

/- ### The single-active-host invariant and preservation lemmas -/

/-- At most one active host per room record while the room is active. -/
def HostInvariant (db : DB) : Prop :=
  ∀ r ∈ db.rooms, r.isActive = true → hostCount db r.id ≤ 1

theorem hostCount_map_le (R R' : List Room) (l : List Participant)
    (f : Participant → Participant) (rid : String)
    (hf : ∀ p, hostPred rid (f p) = true → hostPred rid p = true) :
    hostCount ⟨R, l.map f⟩ rid ≤ hostCount ⟨R', l⟩ rid := by
  unfold hostCount
  simp only [List.countP_map]
  exact List.countP_mono_left (fun x _ h => hf x h)

theorem hostCount_map_eq (R R' : List Room) (l : List Participant)
    (f : Participant → Participant) (rid : String)
    (hf : ∀ p, hostPred rid (f p) = hostPred rid p) :
    hostCount ⟨R, l.map f⟩ rid = hostCount ⟨R', l⟩ rid := by
  unfold hostCount
  simp only [List.countP_map]
  exact List.countP_congr (fun x _ => by
    simp only [Function.comp_apply, hf])

theorem hostCount_append_one (R R' : List Room) (l : List Participant)
    (p : Participant) (rid : String) :
    hostCount ⟨R, l ++ [p]⟩ rid =
      hostCount ⟨R', l⟩ rid + (if hostPred rid p then 1 else 0) := by
  unfold hostCount
  simp [List.countP_append, List.countP_cons]

/-- Stamping `leftAt` on a subset of the participants can only shrink a
host count. -/
theorem hostPred_stamp_le (rid : String) (cond : Participant → Bool)
    (now : Int) (p : Participant) :
    hostPred rid (if cond p then { p with leftAt := some now } else p) = true →
    hostPred rid p = true := by
  by_cases hc : cond p
  · simp [hc, hostPred]
  · simp [hc]

/-- Updating the three media flags does not change a host count. -/
theorem hostPred_flags_eq (rid : String) (p q : Participant)
    (hroom : q.roomId = p.roomId) (hhost : q.isHost = p.isHost)
    (hleft : q.leftAt = p.leftAt) :
    hostPred rid q = hostPred rid p := by
  simp [hostPred, hroom, hhost, hleft]

/-- Preservation of the invariant by an update that only touches
participant rows and never makes a row newly count as an active host. -/
theorem hostInvariant_map_participants (db : DB)
    (f : Participant → Participant)
    (hf : ∀ rid p, hostPred rid (f p) = true → hostPred rid p = true)
    (hInv : HostInvariant db) :
    HostInvariant { db with participants := db.participants.map f } := by
  intro r hr hact
  exact le_trans
    (hostCount_map_le db.rooms db.rooms db.participants f r.id (hf r.id))
    (hInv r hr hact)

/-- Preservation of the invariant by the room-closing update shared by
`checkTimeout` and `endMeeting`: deactivate the rooms with the given id
and stamp `leftAt` on the still-present participants of that id. -/
theorem hostInvariant_close (db : DB) (roomId : String) (now : Int)
    (hInv : HostInvariant db) :
    HostInvariant
      ⟨db.rooms.map (fun r =>
          if r.id == roomId then { r with isActive := false } else r),
        db.participants.map (fun p =>
          if p.roomId == roomId && p.leftAt.isNone then
            { p with leftAt := some now } else p)⟩ := by
  intro r' hr' hact
  obtain ⟨r, hr, hfr⟩ := List.mem_map.mp hr'
  by_cases hid : r.id == roomId
  · rw [hid] at hfr
    simp only [if_pos rfl] at hfr
    rw [← hfr] at hact
    simp at hact
  · simp only [hid] at hfr
    simp only [Bool.false_eq_true, if_false] at hfr
    subst hfr
    exact le_trans
      (hostCount_map_le _ db.rooms db.participants _ r.id
        (hostPred_stamp_le r.id _ now))
      (hInv r hr hact)

/-- A guarded update that only rewrites fields other than `roomId`,
`isHost` and `leftAt` leaves `hostPred` unchanged. -/
theorem hostPred_if_flags (rid : String) (cond : Participant → Bool)
    (g : Participant → Participant)
    (hg : ∀ p, (g p).roomId = p.roomId ∧ (g p).isHost = p.isHost ∧
      (g p).leftAt = p.leftAt) (p : Participant) :
    hostPred rid (if cond p then g p else p) = true →
      hostPred rid p = true := by
  by_cases hc : cond p
  · simp only [if_pos hc]
    rw [hostPred_flags_eq rid p (g p) (hg p).1 (hg p).2.1 (hg p).2.2]
    exact id
  · simp [hc]

/-- Appending one participant who is host only when the room had no
active host keeps the invariant. -/
theorem hostInvariant_insert (db : DB) (rid : String) (newP : Participant)
    (hroom : newP.roomId = rid)
    (hhost : newP.isHost = true → hostCount db rid = 0)
    (hInv : HostInvariant db) :
    HostInvariant { db with participants := db.participants ++ [newP] } := by
  intro r hr hact
  have happ := hostCount_append_one db.rooms db.rooms db.participants newP r.id
  by_cases hp : hostPred r.id newP = true
  · have h1 : newP.isHost = true := by
      have := hp
      unfold hostPred at this
      exact (Bool.and_eq_true _ _ |>.mp
        ((Bool.and_eq_true _ _ |>.mp this).1)).2
    have hrid : rid = r.id := by
      have := hp
      unfold hostPred at this
      have := (Bool.and_eq_true _ _ |>.mp
        ((Bool.and_eq_true _ _ |>.mp this).1)).1
      have := of_decide_eq_true this
      rw [← hroom]; exact this
    have h0 : hostCount db rid = 0 := hhost h1
    calc hostCount { db with participants := db.participants ++ [newP] } r.id
        = hostCount db r.id + 1 := by rw [happ, if_pos hp]
      _ = 0 + 1 := by rw [← hrid, h0]
      _ ≤ 1 := le_refl 1
  · calc hostCount { db with participants := db.participants ++ [newP] } r.id
        = hostCount db r.id := by rw [happ, if_neg hp]; simp
      _ ≤ 1 := hInv r hr hact

theorem hostInvariant_leaveRoom (db : DB) (pid : String) (now : Int)
    (hInv : HostInvariant db) : HostInvariant (leaveRoom db pid now).1 := by
  unfold leaveRoom
  split
  · exact hInv
  · exact hostInvariant_map_participants db _
      (fun rid p => hostPred_stamp_le rid
        (fun q => q.id == pid && q.leftAt.isNone) now p) hInv

theorem hostInvariant_checkTimeout (db : DB) (roomId : String) (now : Int)
    (hInv : HostInvariant db) :
    HostInvariant (checkTimeout db roomId now).1 := by
  unfold checkTimeout
  cases hfind : findActiveRoom db roomId with
  | none => exact hInv
  | some room =>
    simp only
    split
    · exact hostInvariant_close db roomId now hInv
    · exact hInv

theorem hostInvariant_endMeeting (db : DB) (roomId pid : String) (now : Int)
    (hInv : HostInvariant db) :
    HostInvariant (endMeeting db roomId pid now).1 := by
  unfold endMeeting
  split
  · exact hInv
  · cases hfind : db.participants.find? (fun p =>
        p.id == pid && p.roomId == roomId && p.leftAt.isNone) with
    | none => exact hInv
    | some caller =>
      simp only
      split
      · exact hInv
      · exact hostInvariant_close db roomId now hInv

theorem hostInvariant_updateOwnParticipant (db : DB) (pid : String)
    (body : UpdateParticipantBody) (hInv : HostInvariant db) :
    HostInvariant (updateOwnParticipant db pid body).1 := by
  unfold updateOwnParticipant
  split
  · exact hInv
  · split
    · exact hInv
    · exact hostInvariant_map_participants db _
        (fun rid p => hostPred_if_flags rid (fun q => q.id == pid)
          (fun q =>
            { q with
                isAudioEnabled := body.isAudioEnabled.getD q.isAudioEnabled
                isVideoEnabled := body.isVideoEnabled.getD q.isVideoEnabled
                isScreenSharing := body.isScreenSharing.getD q.isScreenSharing })
          (fun q => ⟨rfl, rfl, rfl⟩) p) hInv

theorem hostInvariant_kick (db : DB) (pid hid : String) (now : Int)
    (hInv : HostInvariant db) :
    HostInvariant (kickParticipant db pid hid now).1 := by
  unfold kickParticipant
  cases resolveHostAction db pid hid with
  | error e => exact hInv
  | ok t =>
    dsimp only
    exact hostInvariant_map_participants db _
      (fun rid p => hostPred_stamp_le rid
        (fun q => q.id == pid && q.leftAt.isNone) now p) hInv

theorem hostInvariant_mute (db : DB) (pid hid : String) (mute : Bool)
    (hInv : HostInvariant db) :
    HostInvariant (muteParticipant db pid hid mute).1 := by
  unfold muteParticipant
  cases resolveHostAction db pid hid with
  | error e => exact hInv
  | ok t =>
    dsimp only
    exact hostInvariant_map_participants db _
      (fun rid p => hostPred_if_flags rid
        (fun q => q.id == pid && q.leftAt.isNone)
        (fun q => { q with isAudioEnabled := !mute })
        (fun q => ⟨rfl, rfl, rfl⟩) p) hInv

theorem hostInvariant_video (db : DB) (pid hid : String) (enable : Bool)
    (hInv : HostInvariant db) :
    HostInvariant (videoControl db pid hid enable).1 := by
  unfold videoControl
  cases resolveHostAction db pid hid with
  | error e => exact hInv
  | ok t =>
    dsimp only
    exact hostInvariant_map_participants db _
      (fun rid p => hostPred_if_flags rid
        (fun q => q.id == pid && q.leftAt.isNone)
        (fun q => { q with isVideoEnabled := enable })
        (fun q => ⟨rfl, rfl, rfl⟩) p) hInv

theorem hostInvariant_screenshare (db : DB) (pid hid : String) (enable : Bool)
    (hInv : HostInvariant db) :
    HostInvariant (screenshareControl db pid hid enable).1 := by
  unfold screenshareControl
  cases resolveHostAction db pid hid with
  | error e => exact hInv
  | ok t =>
    dsimp only
    exact hostInvariant_map_participants db _
      (fun rid p => hostPred_if_flags rid
        (fun q => q.id == pid && q.leftAt.isNone)
        (fun q => { q with isScreenSharing := enable })
        (fun q => ⟨rfl, rfl, rfl⟩) p) hInv

/-- The store after `joinRoom` is either untouched or extended by the
one `joinNewParticipant` row. -/
theorem joinRoom_fst_cases (db : DB) (roomId name : String)
    (pw : Option String) (newId : String) (now : Int) :
    (joinRoom db roomId name pw newId now).1 = db ∨
    (joinRoom db roomId name pw newId now).1 =
      { db with participants := db.participants ++
        [joinNewParticipant db (sanitizeRoomId roomId)
          (sanitizeString name) newId now] } := by
  unfold joinRoom
  dsimp only
  cases findRoom db (sanitizeRoomId roomId) with
  | none => exact Or.inl rfl
  | some room =>
    dsimp only
    split
    · exact Or.inl rfl
    · split
      · exact Or.inl rfl
      · split
        · exact Or.inl rfl
        · cases List.find? (fun p =>
              p.roomId == sanitizeRoomId roomId &&
              p.name == sanitizeString name && p.leftAt.isNone)
              db.participants with
          | some p => exact Or.inl rfl
          | none => exact Or.inr rfl

theorem hostInvariant_joinRoom (db : DB) (roomId name : String)
    (pw : Option String) (newId : String) (now : Int)
    (hInv : HostInvariant db) :
    HostInvariant (joinRoom db roomId name pw newId now).1 := by
  rcases joinRoom_fst_cases db roomId name pw newId now with h | h <;> rw [h]
  · exact hInv
  · exact hostInvariant_insert db (sanitizeRoomId roomId)
      (joinNewParticipant db (sanitizeRoomId roomId)
        (sanitizeString name) newId now)
      rfl (fun h => of_decide_eq_true h) hInv

/-- With no pre-existing participant rows of the fresh room id,
`createRoom` preserves the invariant and installs the creator as the one
active host of the new room. -/
theorem hostInvariant_createRoom (db : DB) (data : CreateRoomData)
    (roomId creatorId : String) (now : Int)
    (hfresh : ∀ p ∈ db.participants, p.roomId ≠ roomId)
    (hInv : HostInvariant db) :
    HostInvariant (createRoom db data roomId creatorId now).1 ∧
    hostCount (createRoom db data roomId creatorId now).1 roomId = 1 := by
  have hzero : hostCount db roomId = 0 := by
    unfold hostCount
    apply List.countP_eq_zero.mpr
    intro p hp
    unfold hostPred
    simp [hfresh p hp]
  unfold createRoom
  dsimp only
  constructor
  · intro r' hr' hact
    rw [hostCount_append_one _ db.rooms db.participants _ r'.id]
    by_cases hid : roomId = r'.id
    · have hp : hostPred r'.id
          ({ id := creatorId, roomId := roomId, name := "Host",
             joinedAt := now, leftAt := none, isAudioEnabled := true,
             isVideoEnabled := true, isScreenSharing := false,
             isHost := true } : Participant) = true := by
        simp [hostPred, hid]
      rw [if_pos hp, ← hid, hzero]
    · have hp : hostPred r'.id
          ({ id := creatorId, roomId := roomId, name := "Host",
             joinedAt := now, leftAt := none, isAudioEnabled := true,
             isVideoEnabled := true, isScreenSharing := false,
             isHost := true } : Participant) = false := by
        simp [hostPred]
        intro h
        exact absurd h hid
      rw [if_neg (by simp [hp])]
      simp only [Nat.add_zero]
      rcases List.mem_append.mp hr' with hold | hnew
      · exact hInv r' hold hact
      · exfalso
        have : r'.id = roomId := by
          rcases List.mem_singleton.mp hnew with rfl
          rfl
        exact hid this.symm
  · rw [hostCount_append_one _ db.rooms db.participants _ roomId, hzero]
    have hp : hostPred roomId
        ({ id := creatorId, roomId := roomId, name := "Host",
           joinedAt := now, leftAt := none, isAudioEnabled := true,
           isVideoEnabled := true, isScreenSharing := false,
           isHost := true } : Participant) = true := by
      simp [hostPred]
    rw [if_pos hp]

/-- The fresh-insert branch of `joinRoom`, spelled out: with the room
found, active, password accepted, capacity open and no active same-name
participant, the handler appends exactly `joinNewParticipant` and returns
it. -/
theorem joinRoom_insert_eq (db : DB) (roomId name : String)
    (pw : Option String) (newId : String) (now : Int) (room : Room)
    (hfind : findRoom db (sanitizeRoomId roomId) = some room)
    (hact : room.isActive = true)
    (hrej : passwordRejects room.password pw = false)
    (hcap : (activeCount db (sanitizeRoomId roomId) : Int) <
      room.maxParticipants)
    (hex : db.participants.find? (fun p =>
      p.roomId == sanitizeRoomId roomId &&
      p.name == sanitizeString name && p.leftAt.isNone) = none) :
    joinRoom db roomId name pw newId now =
      ({ db with participants := db.participants ++
          [joinNewParticipant db (sanitizeRoomId roomId)
            (sanitizeString name) newId now] },
       .ok ⟨room, joinNewParticipant db (sanitizeRoomId roomId)
         (sanitizeString name) newId now⟩) := by
  unfold joinRoom
  rw [hfind]
  dsimp only
  rw [hact, hex]
  simp [hrej, not_le.mpr hcap]

/- ### Claim theorems -/

/-- Claim C1: while a room is active it has at most one active host
(`hostCount ≤ 1`), and this is preserved by every operation; `createRoom`
makes the creator the sole host of the fresh room, and `joinRoom` grants
`isHost` to a newly inserted participant exactly when the room currently
has no active host. -/
theorem single_active_host (db : DB) (hInv : HostInvariant db) :
    (∀ data roomId creatorId now,
      (∀ p ∈ db.participants, p.roomId ≠ roomId) →
      HostInvariant (createRoom db data roomId creatorId now).1 ∧
      hostCount (createRoom db data roomId creatorId now).1 roomId = 1) ∧
    (∀ roomId name pw newId now,
      HostInvariant (joinRoom db roomId name pw newId now).1) ∧
    (∀ roomId name pw newId now room,
      findRoom db (sanitizeRoomId roomId) = some room →
      room.isActive = true →
      passwordRejects room.password pw = false →
      (activeCount db (sanitizeRoomId roomId) : Int) < room.maxParticipants →
      db.participants.find? (fun p =>
        p.roomId == sanitizeRoomId roomId &&
        p.name == sanitizeString name && p.leftAt.isNone) = none →
      (joinRoom db roomId name pw newId now).2 =
        .ok ⟨room, joinNewParticipant db (sanitizeRoomId roomId)
          (sanitizeString name) newId now⟩ ∧
      ((joinNewParticipant db (sanitizeRoomId roomId)
          (sanitizeString name) newId now).isHost = true ↔
        hostCount db (sanitizeRoomId roomId) = 0)) ∧
    (∀ pid now, HostInvariant (leaveRoom db pid now).1) ∧
    (∀ roomId now, HostInvariant (checkTimeout db roomId now).1) ∧
    (∀ roomId pid now, HostInvariant (endMeeting db roomId pid now).1) ∧
    (∀ pid body, HostInvariant (updateOwnParticipant db pid body).1) ∧
    (∀ pid hid now, HostInvariant (kickParticipant db pid hid now).1) ∧
    (∀ pid hid m, HostInvariant (muteParticipant db pid hid m).1) ∧
    (∀ pid hid e, HostInvariant (videoControl db pid hid e).1) ∧
    (∀ pid hid e, HostInvariant (screenshareControl db pid hid e).1) := by
  refine ⟨?_, ?_, ?_, ?_, ?_, ?_, ?_, ?_, ?_, ?_, ?_⟩
  · exact fun data roomId creatorId now hfresh =>
      hostInvariant_createRoom db data roomId creatorId now hfresh hInv
  · exact fun roomId name pw newId now =>
      hostInvariant_joinRoom db roomId name pw newId now hInv
  · intro roomId name pw newId now room hfind hact hrej hcap hex
    constructor
    · rw [joinRoom_insert_eq db roomId name pw newId now room
        hfind hact hrej hcap hex]
    · simp [joinNewParticipant]
  · exact fun pid now => hostInvariant_leaveRoom db pid now hInv
  · exact fun roomId now => hostInvariant_checkTimeout db roomId now hInv
  · exact fun roomId pid now =>
      hostInvariant_endMeeting db roomId pid now hInv
  · exact fun pid body =>
      hostInvariant_updateOwnParticipant db pid body hInv
  · exact fun pid hid now => hostInvariant_kick db pid hid now hInv
  · exact fun pid hid m => hostInvariant_mute db pid hid m hInv
  · exact fun pid hid e => hostInvariant_video db pid hid e hInv
  · exact fun pid hid e => hostInvariant_screenshare db pid hid e hInv

/-- Closed instance of C1 at the empty store. -/
theorem single_active_host_witness :
    HostInvariant emptyDB ∧
    HostInvariant (leaveRoom emptyDB "p1" 0).1 :=
  ⟨fun r hr => absurd hr (List.not_mem_nil r),
   (single_active_host emptyDB
      (fun r hr => absurd hr (List.not_mem_nil r))).2.2.2.1 "p1" 0⟩

/-- Claim C2: joinRoom fails NotFound on an unknown room id, Gone on an
inactive room, Forbidden on a password mismatch, Conflict when the active
count has reached maxParticipants — and in every failure the store is
untouched, so no participant row is ever created at capacity. -/
theorem joinRoom_error_taxonomy (db : DB) (roomId name : String)
    (pw : Option String) (newId : String) (now : Int) :
    (findRoom db (sanitizeRoomId roomId) = none →
      joinRoom db roomId name pw newId now = (db, .error .notFound)) ∧
    (∀ room, findRoom db (sanitizeRoomId roomId) = some room →
      room.isActive = false →
      joinRoom db roomId name pw newId now = (db, .error .gone)) ∧
    (∀ room, findRoom db (sanitizeRoomId roomId) = some room →
      room.isActive = true →
      passwordRejects room.password pw = true →
      joinRoom db roomId name pw newId now = (db, .error .forbidden)) ∧
    (∀ room, findRoom db (sanitizeRoomId roomId) = some room →
      room.isActive = true →
      passwordRejects room.password pw = false →
      (activeCount db (sanitizeRoomId roomId) : Int) ≥ room.maxParticipants →
      joinRoom db roomId name pw newId now = (db, .error .conflict)) := by
  refine ⟨?_, ?_, ?_, ?_⟩
  · intro h
    unfold joinRoom
    rw [h]
  · intro room h hact
    unfold joinRoom
    rw [h]
    simp [hact]
  · intro room h hact hrej
    unfold joinRoom
    rw [h]
    simp [hact, hrej]
  · intro room h hact hrej hcap
    unfold joinRoom
    rw [h]
    simp [hact, hrej, hcap]

/-- Closed instance of C2: joining an unknown room id fails NotFound. -/
theorem joinRoom_error_taxonomy_witness :
    findRoom emptyDB (sanitizeRoomId "nosuchroom") = none ∧
    joinRoom emptyDB "nosuchroom" "Bob" none "p1" 0 =
      (emptyDB, .error .notFound) :=
  ⟨rfl, (joinRoom_error_taxonomy emptyDB "nosuchroom" "Bob" none "p1" 0).1 rfl⟩

/-- Claim C3: checkTimeout reports
`remainingMinutes = max 0 (30 - minutesElapsed)`; at 30 or more elapsed
minutes the call itself closes the room (deactivates it and stamps every
still-present participant), answers `{shouldClose := true,
remainingMinutes := 0}`, and every later poll answers the same with no
further state change; an unknown or inactive room answers
`{shouldClose := true, remainingMinutes := 0}` with no error and no state
change. -/
theorem checkTimeout_spec (db : DB) (roomId : String) (now : Int) :
    (∀ room, findActiveRoom db roomId = some room →
      (checkTimeout db roomId now).2.remainingMinutes =
        max 0 (30 - Int.fdiv (now - room.createdAt) 60000)) ∧
    (∀ room, findActiveRoom db roomId = some room →
      Int.fdiv (now - room.createdAt) 60000 ≥ 30 →
      (checkTimeout db roomId now).2 = ⟨true, 0⟩ ∧
      (∀ r ∈ (checkTimeout db roomId now).1.rooms,
        r.id = roomId → r.isActive = false) ∧
      (∀ p ∈ (checkTimeout db roomId now).1.participants,
        p.roomId = roomId → p.leftAt.isSome = true) ∧
      (∀ later, checkTimeout (checkTimeout db roomId now).1 roomId later =
        ((checkTimeout db roomId now).1, ⟨true, 0⟩))) ∧
    (findActiveRoom db roomId = none →
      checkTimeout db roomId now = (db, ⟨true, 0⟩)) := by
  refine ⟨?_, ?_, ?_⟩
  · intro room hfind
    unfold checkTimeout
    rw [hfind]
    dsimp only
    by_cases he : Int.fdiv (now - room.createdAt) 60000 ≥ 30
    · rw [if_pos he]
      dsimp only
      rw [max_eq_left (by omega)]
    · rw [if_neg he]
  · intro room hfind he
    have hstep : checkTimeout db roomId now =
        (⟨db.rooms.map (fun r =>
            if r.id == roomId then { r with isActive := false } else r),
          db.participants.map (fun p =>
            if p.roomId == roomId && p.leftAt.isNone then
              { p with leftAt := some now } else p)⟩,
         ⟨true, 0⟩) := by
      unfold checkTimeout
      rw [hfind]
      dsimp only
      rw [if_pos he]
    rw [hstep]
    have hrooms : ∀ r ∈ (db.rooms.map (fun r =>
        if r.id == roomId then { r with isActive := false } else r)),
        r.id = roomId → r.isActive = false := by
      intro r hr hid
      obtain ⟨r0, hr0, hfr⟩ := List.mem_map.mp hr
      by_cases h0 : r0.id == roomId
      · rw [if_pos h0] at hfr
        rw [← hfr]
      · rw [if_neg h0] at hfr
        subst hfr
        exact absurd (by simp [hid]) h0
    refine ⟨rfl, hrooms, ?_, ?_⟩
    · intro p hp hid
      obtain ⟨p0, hp0, hfp⟩ := List.mem_map.mp hp
      by_cases h0 : p0.roomId == roomId && p0.leftAt.isNone
      · rw [if_pos h0] at hfp
        rw [← hfp]
        rfl
      · rw [if_neg h0] at hfp
        subst hfp
        have hbeq : (p0.roomId == roomId) = true := by simp [hid]
        cases hl : p0.leftAt with
        | some t => rfl
        | none => exact absurd (by simp [hbeq, hl]) h0
    · intro later
      have hnone : findActiveRoom
          (⟨db.rooms.map (fun r =>
              if r.id == roomId then { r with isActive := false } else r),
            db.participants.map (fun p =>
              if p.roomId == roomId && p.leftAt.isNone then
                { p with leftAt := some now } else p)⟩ : DB) roomId = none := by
        unfold findActiveRoom
        apply List.find?_eq_none.mpr
        intro r hr hpred
        have h1 := (Bool.and_eq_true _ _).mp hpred
        have hid : r.id = roomId := by simpa using h1.1
        have hact := hrooms r hr hid
        rw [hact] at h1
        exact Bool.false_ne_true h1.2
      unfold checkTimeout
      rw [hnone]
  · intro h
    unfold checkTimeout
    rw [h]

/-- Closed instance of C3: polling `roomA` (created at 0) at the
30-minute mark answers shouldClose with 0 minutes remaining. -/
theorem checkTimeout_spec_witness :
    findActiveRoom dbFresh "rooma" = some roomA ∧
    Int.fdiv ((1800000 : Int) - roomA.createdAt) 60000 ≥ 30 ∧
    (checkTimeout dbFresh "rooma" 1800000).2 = ⟨true, 0⟩ :=
  ⟨rfl, by decide,
   ((checkTimeout_spec dbFresh "rooma" 1800000).2.1 roomA rfl (by decide)).1⟩

/-- Claim C4: each of the four host actions, once the requester resolves
to an active host and the target to an active participant of the same
room, refuses a host target with Forbidden and leaves the store
untouched. -/
theorem host_target_forbidden (db : DB) (pid hid : String) (now : Int)
    (mute enable : Bool) (h t : Participant)
    (hhid : hid ≠ "")
    (hfindh : db.participants.find?
      (fun p => p.id == hid && p.leftAt.isNone) = some h)
    (hisHost : h.isHost = true)
    (hfindt : db.participants.find?
      (fun p => p.id == pid && p.leftAt.isNone) = some t)
    (hsame : t.roomId = h.roomId)
    (hthost : t.isHost = true) :
    kickParticipant db pid hid now = (db, .error .forbidden) ∧
    muteParticipant db pid hid mute = (db, .error .forbidden) ∧
    videoControl db pid hid enable = (db, .error .forbidden) ∧
    screenshareControl db pid hid enable = (db, .error .forbidden) := by
  have hres : resolveHostAction db pid hid = .error .forbidden := by
    unfold resolveHostAction
    rw [if_neg hhid, hfindh]
    dsimp only
    rw [if_neg (by simp [hisHost]), hfindt]
    dsimp only
    rw [if_neg (by simp [hsame]), if_pos hthost]
  refine ⟨?_, ?_, ?_, ?_⟩
  · unfold kickParticipant
    rw [hres]
  · unfold muteParticipant
    rw [hres]
  · unfold videoControl
    rw [hres]
  · unfold screenshareControl
    rw [hres]

/-- Closed instance of C4: in `dbFresh` the host targeting itself (a host
target) is refused with Forbidden by all four actions. -/
theorem host_target_forbidden_witness :
    hostA.isHost = true ∧
    kickParticipant dbFresh "cr1" "cr1" 9 = (dbFresh, .error .forbidden) ∧
    muteParticipant dbFresh "cr1" "cr1" true = (dbFresh, .error .forbidden) :=
  ⟨rfl,
   (host_target_forbidden dbFresh "cr1" "cr1" 9 true true hostA hostA
     (by decide) (by decide) rfl (by decide) rfl rfl).1,
   (host_target_forbidden dbFresh "cr1" "cr1" 9 true true hostA hostA
     (by decide) (by decide) rfl (by decide) rfl rfl).2.1⟩

/-- Inversion of a successful `createRoomSchema` parse: the returned
maxParticipants is the request value (default 10) and lies in [2,10]. -/
theorem validateCreateRoom_ok_max (inp : CreateRoomInput)
    (data : CreateRoomData) (h : validateCreateRoom inp = .ok data) :
    data.maxParticipants = inp.maxParticipants.getD 10 ∧
    2 ≤ data.maxParticipants ∧ data.maxParticipants ≤ 10 := by
  unfold validateCreateRoom at h
  split at h
  · exact Except.noConfusion h
  · split at h
    · exact Except.noConfusion h
    · split at h
      · exact Except.noConfusion h
      · split at h
        · exact Except.noConfusion h
        · split at h
          · exact Except.noConfusion h
          · injection h with hh
            subst hh
            rename_i h5
            have h5' : ¬(inp.maxParticipants.getD 10 < 2 ∨
                inp.maxParticipants.getD 10 > 10) := h5
            refine ⟨rfl, ?_, ?_⟩
            · show (2 : Int) ≤ inp.maxParticipants.getD 10
              omega
            · show inp.maxParticipants.getD 10 ≤ (10 : Int)
              omega

/-- Every `createRoomSchema` violation is reported as a 400. -/
theorem validateCreateRoom_error_code (inp : CreateRoomInput) (e : ErrCode)
    (h : validateCreateRoom inp = .error e) : e = .badRequest := by
  unfold validateCreateRoom at h
  split at h
  · injection h with hh
    exact hh.symm
  · split at h
    · injection h with hh
      exact hh.symm
    · split at h
      · injection h with hh
        exact hh.symm
      · split at h
        · injection h with hh
          exact hh.symm
        · split at h
          · injection h with hh
            exact hh.symm
          · exact Except.noConfusion h

/-- Counterexample to C5 as stated: a createRoom request with
maxParticipants = 11 is rejected with 400 by the zod schema (min 2, max
10) before the handler's `Math.min` clamp ever runs; it is not accepted
with the value clamped down to 10. -/
theorem createRoom_max_eleven_rejected :
    createRoomEndpoint emptyDB
      ⟨"Standup", none, none, none, some 11⟩ "roomxx" "cr1" 0 =
      (emptyDB, .error .badRequest) := by decide

/-- Claim C5 as amended: a maxParticipants request outside [2,10] is
rejected with BadRequest (not clamped); a missing field defaults to 10;
any accepted request yields a room whose maxParticipants equals the
requested value and lies in [2,10]. -/
theorem createRoom_max_validated (db : DB) (inp : CreateRoomInput)
    (roomId creatorId : String) (now : Int) :
    (∀ m : Int, inp.maxParticipants = some m → (m < 2 ∨ m > 10) →
      createRoomEndpoint db inp roomId creatorId now =
        (db, .error .badRequest)) ∧
    (∀ db' room cid,
      createRoomEndpoint db inp roomId creatorId now =
        (db', .ok (room, cid)) →
      room.maxParticipants = inp.maxParticipants.getD 10 ∧
      2 ≤ room.maxParticipants ∧ room.maxParticipants ≤ 10) := by
  constructor
  · intro m hm hbad
    unfold createRoomEndpoint
    cases hv : validateCreateRoom inp with
    | error e =>
      rw [validateCreateRoom_error_code inp e hv]
    | ok data =>
      exfalso
      have hmax := validateCreateRoom_ok_max inp data hv
      rw [hm] at hmax
      have h1 := hmax.1
      have h2 := hmax.2
      simp only [Option.getD_some] at h1
      omega
  · intro db' room cid heq
    unfold createRoomEndpoint at heq
    cases hv : validateCreateRoom inp with
    | error e =>
      rw [hv] at heq
      injection heq with hdb hres
      exact Except.noConfusion hres
    | ok data =>
      have hmax := validateCreateRoom_ok_max inp data hv
      rw [hv] at heq
      unfold createRoom at heq
      dsimp only at heq
      injection heq with hdb hres
      injection hres with hpair
      have hroom : room =
          { id := roomId
            title := sanitizeString data.title
            description := data.description.map sanitizeString
            password := match data.password with
                        | some p => if p = "" then none else some p
                        | none => none
            isRecordingEnabled := data.isRecordingEnabled
            maxParticipants :=
              min (if data.maxParticipants = 0 then 10
                   else data.maxParticipants) 10
            createdAt := now
            isActive := true
            creatorId := some creatorId } := by
        injection hpair with h1 h2
        exact h1.symm
      rw [hroom]
      dsimp only
      rw [if_neg (by omega)]
      rw [min_eq_left (by omega)]
      exact ⟨hmax.1, by omega, by omega⟩

/-- Closed instance of the amended C5: maxParticipants = 1 (below the
minimum) is rejected with BadRequest. -/
theorem createRoom_max_validated_witness :
    (⟨"Standup", none, none, none, some 1⟩ :
      CreateRoomInput).maxParticipants = some 1 ∧
    ((1 : Int) < 2 ∨ (1 : Int) > 10) ∧
    createRoomEndpoint emptyDB ⟨"Standup", none, none, none, some 1⟩
      "roomxx" "cr1" 0 = (emptyDB, .error .badRequest) :=
  ⟨rfl, Or.inl (by decide),
   (createRoom_max_validated emptyDB ⟨"Standup", none, none, none, some 1⟩
     "roomxx" "cr1" 0).1 1 rfl (Or.inl (by decide))⟩

/-- Counterexample to C6 as stated: in `dbFull` (roomA at its 2-seat
capacity) an active participant named "Bob" exists, yet joining again as
"Bob" fails Conflict with no row returned — the capacity check runs
before the same-name reconciliation. -/
theorem joinRoom_reconcile_full_room_conflict :
    dbFull.participants.find? (fun p =>
      p.roomId == sanitizeRoomId "rooma" &&
      p.name == sanitizeString "Bob" && p.leftAt.isNone) = some bobA ∧
    joinRoom dbFull "rooma" "Bob" none "p3" 7 =
      (dbFull, .error .conflict) := by
  decide

/-- Claim C6 as amended: once the room resolves, is active, the password
matches and the active count is below capacity, a join whose sanitised
name matches an active participant returns exactly that participant and
adds no row; at or above capacity even a matching-name rejoin fails
Conflict. -/
theorem joinRoom_reconciliation (db : DB) (roomId name : String)
    (pw : Option String) (newId : String) (now : Int) (room : Room)
    (hfind : findRoom db (sanitizeRoomId roomId) = some room)
    (hact : room.isActive = true)
    (hrej : passwordRejects room.password pw = false) :
    (∀ p, (activeCount db (sanitizeRoomId roomId) : Int) <
        room.maxParticipants →
      db.participants.find? (fun q =>
        q.roomId == sanitizeRoomId roomId &&
        q.name == sanitizeString name && q.leftAt.isNone) = some p →
      joinRoom db roomId name pw newId now = (db, .ok ⟨room, p⟩)) ∧
    ((activeCount db (sanitizeRoomId roomId) : Int) ≥
        room.maxParticipants →
      joinRoom db roomId name pw newId now = (db, .error .conflict)) := by
  constructor
  · intro p hcap hex
    unfold joinRoom
    rw [hfind]
    dsimp only
    rw [hact, hex]
    simp [hrej, not_le.mpr hcap]
  · intro hcap
    unfold joinRoom
    rw [hfind]
    simp [hact, hrej, hcap]

/-- Closed instance of the amended C6: rejoining the fresh `roomA` as
"Host" returns the creator row `cr1` both times — the same participant
id, with no second row created. -/
theorem joinRoom_reconciliation_witness :
    findRoom dbFresh (sanitizeRoomId "rooma") = some roomA ∧
    joinRoom dbFresh "rooma" "Host" none "p7" 3 =
      (dbFresh, .ok ⟨roomA, hostA⟩) ∧
    joinRoom dbFresh "rooma" "Host" none "p8" 4 =
      (dbFresh, .ok ⟨roomA, hostA⟩) :=
  ⟨rfl,
   (joinRoom_reconciliation dbFresh "rooma" "Host" none "p7" 3 roomA
     rfl rfl rfl).1 hostA (by decide) (by decide),
   (joinRoom_reconciliation dbFresh "rooma" "Host" none "p8" 4 roomA
     rfl rfl rfl).1 hostA (by decide) (by decide)⟩

/-- Binding the joining connection does not change which connections the
join broadcast reaches: the joiner is excluded by id, and every other
entry is untouched by the binding map. -/
theorem filter_broadcast_bind (clients : List HubClient)
    (cid rid pid : String) :
    (clients.map (fun c => if c.clientId == cid then
        { c with roomId := some rid, participantId := some pid }
      else c)).filter
        (fun c => c.roomId == some rid && c.clientId ≠ cid) =
    clients.filter (fun c => c.roomId == some rid && c.clientId ≠ cid) := by
  induction clients with
  | nil => rfl
  | cons c cs ih =>
    by_cases hc : c.clientId == cid
    · have hid : c.clientId = cid := by simpa using hc
      simp only [List.map_cons, if_pos hc, List.filter_cons]
      have hpm : (({ c with roomId := some rid, participantId := some pid } :
          HubClient).roomId == some rid &&
          decide (({ c with roomId := some rid, participantId := some pid } :
            HubClient).clientId ≠ cid)) = false := by
        simp [hid]
      have hpc : (c.roomId == some rid && decide (c.clientId ≠ cid)) =
          false := by
        simp [hid]
      rw [hpm, hpc]
      simp only [Bool.false_eq_true, if_false]
      exact ih
    · simp only [List.map_cons, if_neg hc, List.filter_cons]
      rw [ih]

/-- Counterexample to C7 as stated: `roomA` caps REST admission at 2 and
the hub already counts 2 live connections for it, yet the hub still binds
a third connection and broadcasts `participant-joined` — its check uses
the fixed constant 10, not the room's maxParticipants. -/
theorem handleJoinRoom_ignores_rest_cap :
    roomA.maxParticipants = 2 ∧
    (getRoomCount hubTwo "rooma" : Int) ≥ roomA.maxParticipants ∧
    handleJoinRoom hubTwo "c3" "rooma" "p3" =
      ({ clients :=
           [ { clientId := "c1", roomId := some "rooma",
               participantId := some "cr1" },
             { clientId := "c2", roomId := some "rooma",
               participantId := some "p2" },
             { clientId := "c3", roomId := some "rooma",
               participantId := some "p3" } ]
         roomCount := [("rooma", 3)] },
       [("c1", .participantJoined "p3" "rooma"),
        ("c2", .participantJoined "p3" "rooma")]) := by
  decide

/-- Claim C7 as amended: the hub's join handler rejects exactly when the
room's live count has reached the fixed `MAX_CLIENTS_PER_ROOM = 10` (not
the room's maxParticipants); below that it binds the connection, bumps
the count and sends `participant-joined` to precisely the other
connections bound to the room. -/
theorem handleJoinRoom_fixed_cap (st : HubState) (cid rid pid : String)
    (client : HubClient)
    (hfind : st.clients.find? (fun c => c.clientId == cid) = some client) :
    (getRoomCount st rid ≥ MAX_CLIENTS_PER_ROOM →
      handleJoinRoom st cid rid pid =
        (st, [(cid, .errorMsg "Room is full")])) ∧
    (getRoomCount st rid < MAX_CLIENTS_PER_ROOM → client.roomId = none →
      handleJoinRoom st cid rid pid =
        ({ clients := st.clients.map (fun c =>
             if c.clientId == cid then
               { c with roomId := some rid, participantId := some pid }
             else c)
           roomCount := setRoomCount st.roomCount rid
             (getRoomCount st rid + 1) },
         (st.clients.filter (fun c =>
           c.roomId == some rid && c.clientId ≠ cid)).map
           (fun c => (c.clientId, WsOut.participantJoined pid rid)))) := by
  constructor
  · intro hge
    unfold handleJoinRoom
    rw [hfind]
    dsimp only
    rw [if_pos hge]
  · intro hlt hunbound
    unfold handleJoinRoom
    rw [hfind]
    dsimp only
    rw [if_neg (not_le.mpr hlt), hunbound]
    dsimp only
    rw [List.nil_append]
    unfold broadcastToRoom
    rw [filter_broadcast_bind]

/-- Closed instance of the amended C7: with the count map already at the
fixed cap of 10 the hub refuses to bind and answers an error notice. -/
theorem handleJoinRoom_fixed_cap_witness :
    hubAtCap.clients.find? (fun c => c.clientId == "d1") =
      some { clientId := "d1", roomId := none, participantId := none } ∧
    getRoomCount hubAtCap "roomx" ≥ MAX_CLIENTS_PER_ROOM ∧
    handleJoinRoom hubAtCap "d1" "roomx" "p1" =
      (hubAtCap, [("d1", .errorMsg "Room is full")]) :=
  ⟨rfl, by decide,
   (handleJoinRoom_fixed_cap hubAtCap "d1" "roomx" "p1"
     { clientId := "d1", roomId := none, participantId := none } rfl).1
     (by decide)⟩

/-- A row that is a fixed point of the update function survives a mapped
UPDATE unchanged, at its position. -/
theorem get?_map_fixed (l : List Participant) (f : Participant → Participant)
    (i : Nat) (p : Participant) (hget : l[i]? = some p) (hfp : f p = p) :
    (l.map f)[i]? = some p := by
  rw [List.getElem?_map, hget]
  simp [hfp]

/-- Counterexample to C8 as stated: `departedP` left at time 5, yet the
self-service update (whose SQL has no `left_at IS NULL` condition) still
succeeds and flips its audio flag. -/
theorem updateOwnParticipant_mutates_departed :
    departedP.leftAt = some 5 ∧
    departedP.isAudioEnabled = true ∧
    updateOwnParticipant dbDeparted "p9" ⟨some false, none, none⟩ =
      (⟨[roomA], [hostA, { departedP with isAudioEnabled := false }]⟩,
       .ok ()) := by
  decide

/-- Claim C8 as amended: a set `leftAt` is final for leaveRoom, the four
host actions, checkTimeout and endMeeting — each leaves a departed row
untouched and none ever clears `leftAt` — but `updateOwnParticipant` has
no `left_at` guard: it still rewrites the media flags of the row with the
given id (departed or not), while preserving its id, roomId, `leftAt` and
`isHost`, and leaving every other row alone. -/
theorem departed_row_mutation (db : DB) (i : Nat) (p : Participant)
    (hget : db.participants[i]? = some p)
    (hdep : p.leftAt.isSome = true) :
    (∀ pid now, (leaveRoom db pid now).1.participants[i]? = some p) ∧
    (∀ pid hid now,
      (kickParticipant db pid hid now).1.participants[i]? = some p) ∧
    (∀ pid hid m,
      (muteParticipant db pid hid m).1.participants[i]? = some p) ∧
    (∀ pid hid e,
      (videoControl db pid hid e).1.participants[i]? = some p) ∧
    (∀ pid hid e,
      (screenshareControl db pid hid e).1.participants[i]? = some p) ∧
    (∀ roomId now,
      (checkTimeout db roomId now).1.participants[i]? = some p) ∧
    (∀ roomId pid now,
      (endMeeting db roomId pid now).1.participants[i]? = some p) ∧
    (∀ pid body, ∃ q,
      (updateOwnParticipant db pid body).1.participants[i]? = some q ∧
      q.id = p.id ∧ q.roomId = p.roomId ∧ q.leftAt = p.leftAt ∧
      q.isHost = p.isHost ∧ (p.id ≠ pid → q = p)) := by
  obtain ⟨t, hl⟩ := Option.isSome_iff_exists.mp hdep
  have hnone : p.leftAt.isNone = false := by rw [hl]; rfl
  have hstampid : ∀ pid : String, (p.id == pid && p.leftAt.isNone) = false := by
    intro pid
    rw [hnone, Bool.and_false]
  have hstamproom : ∀ rid : String,
      (p.roomId == rid && p.leftAt.isNone) = false := by
    intro rid
    rw [hnone, Bool.and_false]
  refine ⟨?_, ?_, ?_, ?_, ?_, ?_, ?_, ?_⟩
  · intro pid now
    unfold leaveRoom
    split
    · exact hget
    · exact get?_map_fixed _ _ i p hget (by rw [if_neg (by simp [hstampid pid])])
  · intro pid hid now
    unfold kickParticipant
    cases resolveHostAction db pid hid with
    | error e => exact hget
    | ok u =>
      exact get?_map_fixed _ _ i p hget
        (by rw [if_neg (by simp [hstampid pid])])
  · intro pid hid m
    unfold muteParticipant
    cases resolveHostAction db pid hid with
    | error e => exact hget
    | ok u =>
      exact get?_map_fixed _ _ i p hget
        (by rw [if_neg (by simp [hstampid pid])])
  · intro pid hid e
    unfold videoControl
    cases resolveHostAction db pid hid with
    | error e => exact hget
    | ok u =>
      exact get?_map_fixed _ _ i p hget
        (by rw [if_neg (by simp [hstampid pid])])
  · intro pid hid e
    unfold screenshareControl
    cases resolveHostAction db pid hid with
    | error e => exact hget
    | ok u =>
      exact get?_map_fixed _ _ i p hget
        (by rw [if_neg (by simp [hstampid pid])])
  · intro roomId now
    unfold checkTimeout
    cases findActiveRoom db roomId with
    | none => exact hget
    | some room =>
      dsimp only
      split
      · exact get?_map_fixed _ _ i p hget
          (by rw [if_neg (by simp [hstamproom roomId])])
      · exact hget
  · intro roomId pid now
    unfold endMeeting
    split
    · exact hget
    · cases db.participants.find? (fun q =>
          q.id == pid && q.roomId == roomId && q.leftAt.isNone) with
      | none => exact hget
      | some caller =>
        dsimp only
        split
        · exact hget
        · exact get?_map_fixed _ _ i p hget
            (by rw [if_neg (by simp [hstamproom roomId])])
  · intro pid body
    unfold updateOwnParticipant
    split
    · exact ⟨p, hget, rfl, rfl, rfl, rfl, fun _ => rfl⟩
    · split
      · exact ⟨p, hget, rfl, rfl, rfl, rfl, fun _ => rfl⟩
      · refine ⟨if p.id == pid then
            { p with
                isAudioEnabled := body.isAudioEnabled.getD p.isAudioEnabled
                isVideoEnabled := body.isVideoEnabled.getD p.isVideoEnabled
                isScreenSharing :=
                  body.isScreenSharing.getD p.isScreenSharing }
          else p, ?_, ?_, ?_, ?_, ?_, ?_⟩
        · rw [List.getElem?_map, hget]
          rfl
        · by_cases hpc : p.id == pid <;> simp [hpc]
        · by_cases hpc : p.id == pid <;> simp [hpc]
        · by_cases hpc : p.id == pid <;> simp [hpc]
        · by_cases hpc : p.id == pid <;> simp [hpc]
        · intro hne
          rw [if_neg (by simp [hne])]

/-- Closed instance of the amended C8: kicking cannot touch the departed
row `departedP` (position 1 of `dbDeparted`), which survives unchanged. -/
theorem departed_row_mutation_witness :
    dbDeparted.participants[1]? = some departedP ∧
    departedP.leftAt.isSome = true ∧
    (kickParticipant dbDeparted "p9" "cr1" 9).1.participants[1]? =
      some departedP :=
  ⟨rfl, rfl,
   (departed_row_mutation dbDeparted 1 departedP rfl rfl).2.1 "p9" "cr1" 9⟩

/-- The splice step always equals "keep the last 100" (dropping zero
entries when at or below the cap). -/
theorem trimTo100_eq_drop (l : List ChatMessage) :
    trimTo100 l = l.drop (l.length - 100) := by
  unfold trimTo100
  split
  · rfl
  · rename_i h
    have h0 : l.length - 100 = 0 := by omega
    rw [h0, List.drop_zero]

/-- Head hit of the Map-entry search. -/
theorem chatFind_cons_pos (e : String × List ChatMessage)
    (es : List (String × List ChatMessage)) (roomId : String)
    (he : (e.1 == roomId) = true) :
    List.find? (fun x => x.1 == roomId) (e :: es) = some e :=
  List.find?_cons_of_pos _ he

/-- Head miss of the Map-entry search. -/
theorem chatFind_cons_neg (e : String × List ChatMessage)
    (es : List (String × List ChatMessage)) (roomId : String)
    (he : (e.1 == roomId) = false) :
    List.find? (fun x => x.1 == roomId) (e :: es) =
      List.find? (fun x => x.1 == roomId) es :=
  List.find?_cons_of_neg _ (by simp [he])

/-- Reading back the key just written into the Map. -/
theorem chatLookup_chatSet (st : ChatState) (roomId : String)
    (msgs : List ChatMessage) :
    chatLookup (chatSet st roomId msgs) roomId = some msgs := by
  induction st with
  | nil =>
    unfold chatSet chatLookup
    simp
  | cons e es ih =>
    unfold chatSet chatLookup at ih ⊢
    by_cases he : (e.1 == roomId) = true
    · rw [if_pos (by rw [chatFind_cons_pos e es roomId he]; rfl)]
      rw [List.map_cons, if_pos he]
      rw [chatFind_cons_pos (e.1, msgs) _ roomId (by simpa using he)]
      rfl
    · have he' : (e.1 == roomId) = false := by simpa using he
      by_cases hes : (List.find? (fun x => x.1 == roomId) es).isSome = true
      · rw [if_pos (by rw [chatFind_cons_neg e es roomId he']; exact hes)]
        rw [List.map_cons, if_neg he]
        rw [chatFind_cons_neg e _ roomId he']
        have hih := ih
        rw [if_pos hes] at hih
        exact hih
      · rw [if_neg (by rw [chatFind_cons_neg e es roomId he']; exact hes)]
        rw [List.cons_append]
        rw [chatFind_cons_neg e _ roomId he']
        have hih := ih
        rw [if_neg hes] at hih
        exact hih

/-- Retrimming after one more append agrees with trimming the untrimmed
history: keeping the last 100 is a homomorphic ring-buffer step. -/
theorem drop_last100_append (l t : List ChatMessage) :
    (l.drop (l.length - 100) ++ t).drop
      ((l.drop (l.length - 100) ++ t).length - 100) =
    (l ++ t).drop ((l ++ t).length - 100) := by
  have hk : l.length - 100 ≤ l.length := Nat.sub_le _ _
  have hidx : (l ++ t).length - 100 =
      (l.length - 100) +
        ((l.drop (l.length - 100) ++ t).length - 100) := by
    simp only [List.length_append, List.length_drop]
    omega
  rw [hidx, ← List.drop_drop, List.drop_append_of_le_length hk]

/-- Claim C9: per room the chat buffer is a 100-place ring buffer — after
any request sequence against a room with no history, the listing is
exactly the last `min(total, 100)` messages in insertion order (`drop`
of the full sequence); an unknown room lists empty; clear removes the
room's entry entirely. -/
theorem chat_ring_buffer (roomId : String) (hroom : roomId ≠ "") :
    (∀ st : ChatState, chatLookup st roomId = none →
      listChatMessages st roomId = []) ∧
    (∀ (reqs : List SendReq) (st : ChatState),
      listChatMessages st roomId = [] →
      (∀ r ∈ reqs, r.sender ≠ "" ∧ r.content ≠ "") →
      listChatMessages (runSends st roomId reqs) roomId =
        (mkMsgs roomId reqs).drop ((mkMsgs roomId reqs).length - 100)) ∧
    (∀ st : ChatState,
      chatLookup (clearChatMessages st roomId) roomId = none) := by
  have hgen : ∀ (reqs : List SendReq) (st : ChatState)
      (acc : List ChatMessage),
      listChatMessages st roomId = acc → acc.length ≤ 100 →
      (∀ r ∈ reqs, r.sender ≠ "" ∧ r.content ≠ "") →
      listChatMessages (runSends st roomId reqs) roomId =
        (acc ++ mkMsgs roomId reqs).drop
          ((acc ++ mkMsgs roomId reqs).length - 100) := by
    intro reqs
    induction reqs with
    | nil =>
      intro st acc hacc hlen _
      unfold runSends mkMsgs
      simp only [List.map_nil, List.append_nil]
      rw [hacc]
      have h0 : acc.length - 100 = 0 := by omega
      rw [h0, List.drop_zero]
    | cons r rest ih =>
      intro st acc hacc hlen hok
      unfold runSends
      have hr := hok r (List.mem_cons_self r rest)
      have hsend : (sendChatMessage st roomId r.sender r.content r.newId
          r.now).1 = chatSet st roomId (trimTo100 (acc ++
            [⟨r.newId, roomId, r.sender, r.content, r.now⟩])) := by
        unfold sendChatMessage
        rw [if_neg (by simp [hroom, hr.1, hr.2])]
        unfold listChatMessages at hacc
        rw [hacc]
      rw [hsend]
      have hlook : listChatMessages (chatSet st roomId (trimTo100 (acc ++
          [⟨r.newId, roomId, r.sender, r.content, r.now⟩]))) roomId =
          trimTo100 (acc ++ [⟨r.newId, roomId, r.sender, r.content,
            r.now⟩]) := by
        unfold listChatMessages
        rw [chatLookup_chatSet]
        rfl
      have hlen' : (trimTo100 (acc ++ [⟨r.newId, roomId, r.sender,
          r.content, r.now⟩])).length ≤ 100 := by
        rw [trimTo100_eq_drop, List.length_drop]
        omega
      have hrest := ih _ _ hlook hlen'
        (fun x hx => hok x (List.mem_cons_of_mem _ hx))
      rw [hrest, trimTo100_eq_drop]
      have hmk : mkMsgs roomId (r :: rest) =
          ⟨r.newId, roomId, r.sender, r.content, r.now⟩ ::
            mkMsgs roomId rest := rfl
      rw [hmk, drop_last100_append]
      rw [List.append_assoc, List.singleton_append]
  refine ⟨?_, ?_, ?_⟩
  · intro st h
    unfold listChatMessages
    rw [h]
    rfl
  · intro reqs st hacc hok
    have := hgen reqs st [] hacc (by simp) hok
    rw [this]
    rfl
  · intro st
    unfold clearChatMessages chatLookup
    rw [List.find?_eq_none.mpr]
    · rfl
    · intro x hx hpred
      have hmem := List.mem_filter.mp hx
      have hne : x.1 ≠ roomId := by simpa using hmem.2
      exact hne (by simpa using hpred)

/-- Closed instance of C9: three sends into an empty buffer list back as
exactly those three messages in order. -/
theorem chat_ring_buffer_witness :
    ("rooma" : String) ≠ "" ∧
    listChatMessages (runSends [] "rooma"
      [⟨"alice", "hi", "m1", 1⟩, ⟨"bob", "yo", "m2", 2⟩,
       ⟨"alice", "bye", "m3", 3⟩]) "rooma" =
      [⟨"m1", "rooma", "alice", "hi", 1⟩,
       ⟨"m2", "rooma", "bob", "yo", 2⟩,
       ⟨"m3", "rooma", "alice", "bye", 3⟩] :=
  ⟨by decide,
   by
    rw [(chat_ring_buffer "rooma" (by decide)).2.1
      [⟨"alice", "hi", "m1", 1⟩, ⟨"bob", "yo", "m2", 2⟩,
       ⟨"alice", "bye", "m3", 3⟩] [] rfl (by decide)]
    rfl⟩

/-- Claim C10: POST '/send' never consults the Room store — the room
component of the process state is returned untouched and neither the new
chat state nor the response depends on it (the room may be missing or
inactive); with non-empty roomId, sender and content the append succeeds
and the message is the last entry listed for that room; an empty field is
the only failure, a BadRequest that leaves the buffer untouched. -/
theorem sendChatMessage_no_room_check (db db2 : DB) (st : ChatState)
    (roomId sender content newId : String) (now : Int) :
    ((sysSendChatMessage ⟨db, st⟩ roomId sender content newId now).1.db =
        db ∧
      (sysSendChatMessage ⟨db, st⟩ roomId sender content newId now).1.chat =
        (sysSendChatMessage ⟨db2, st⟩ roomId sender content newId
          now).1.chat ∧
      (sysSendChatMessage ⟨db, st⟩ roomId sender content newId now).2 =
        (sysSendChatMessage ⟨db2, st⟩ roomId sender content newId now).2) ∧
    (roomId ≠ "" → sender ≠ "" → content ≠ "" →
      (sendChatMessage st roomId sender content newId now).2 =
        .ok ⟨newId, roomId, sender, content, now⟩ ∧
      (listChatMessages (sendChatMessage st roomId sender content newId
          now).1 roomId).getLast? =
        some ⟨newId, roomId, sender, content, now⟩) ∧
    ((roomId = "" ∨ sender = "" ∨ content = "") →
      sendChatMessage st roomId sender content newId now =
        (st, .error .badRequest)) := by
  refine ⟨⟨rfl, rfl, rfl⟩, ?_, ?_⟩
  · intro h1 h2 h3
    constructor
    · unfold sendChatMessage
      rw [if_neg (by simp [h1, h2, h3])]
    · unfold sendChatMessage listChatMessages
      rw [if_neg (by simp [h1, h2, h3])]
      dsimp only
      rw [chatLookup_chatSet]
      rw [Option.getD_some, trimTo100_eq_drop]
      have hle : (((chatLookup st roomId).getD [] ++
          [(⟨newId, roomId, sender, content, now⟩ : ChatMessage)]).length -
          100) ≤ ((chatLookup st roomId).getD []).length := by
        simp only [List.length_append, List.length_singleton]
        omega
      rw [List.drop_append_of_le_length hle]
      exact List.getLast?_concat _
  · intro h
    unfold sendChatMessage
    rw [if_pos h]

/-- Closed instance of C10: sending into a room id that no Room record
carries (the store may even be empty) succeeds. -/
theorem sendChatMessage_no_room_check_witness :
    ("ghostroom" : String) ≠ "" ∧
    (sendChatMessage [] "ghostroom" "alice" "hi" "m1" 1).2 =
      .ok ⟨"m1", "ghostroom", "alice", "hi", 1⟩ :=
  ⟨by decide,
   ((sendChatMessage_no_room_check emptyDB dbFresh [] "ghostroom" "alice"
     "hi" "m1" 1).2.1 (by decide) (by decide) (by decide)).1⟩

end IntelliMeet
